import Mathlib

/-
Verification of the application-lifecycle core of the HDB BTO system
(src/main.py): project registry, eligibility gating, application state
machine, withdrawal handling and officer-registration lifecycle.
Python dictionaries become association lists, object references become
numeric IDs, and every print-and-return failure path becomes an explicit
error value from the design's error taxonomy.
-/

namespace HDB

/-- Application status labels used by the source: "Pending", "Successful",
"Unsuccessful", "Booked". -/
inductive AppStatus where
  | Pending
  | Successful
  | Unsuccessful
  | Booked
  deriving DecidableEq, Repr

/-- Officer registration status labels: "Pending", "Approved", "Rejected"
(the initial None is modelled with Option). -/
inductive RegStatus where
  | Pending
  | Approved
  | Rejected
  deriving DecidableEq, Repr

/-- Error taxonomy for the print-and-return failure paths of the source.
KeyError stands for an unguarded Python dict lookup on a missing key. -/
inductive OpError where
  | EligibilityDenied
  | DuplicateActiveApplication
  | UnitsExhausted
  | InvalidStateTransition
  | AuthorizationDenied
  | NotFound
  | SlotExhausted
  | KeyError
  deriving DecidableEq, Repr

/-- One entry of a project's flatTypes dict: {"units": ..., "price": ...}. -/
structure FlatInfo where
  units : Int
  price : Int
  deriving DecidableEq, Repr

/-- BTOProject: the fields the core operations read or write. The owning
manager and assigned officers are referenced by user ID. -/
structure BTOProject where
  projectID : Nat
  projectName : String
  neighborhood : String
  flatTypes : List (String × FlatInfo)
  manager : Nat
  officers : List Nat
  visibility : Bool
  officerSlot : Nat
  deriving DecidableEq, Repr

/-- Application: links one applicant to one project and one chosen flat
type (both by ID in this embedding). -/
structure Application where
  applicantID : Nat
  projectID : Nat
  applicationStatus : AppStatus
  chosen_flat_type : String
  requested_withdrawal : Bool
  deriving DecidableEq, Repr

/-- The personal data of a user that the eligibility rules read. -/
structure ApplicantRec where
  userID : Nat
  age : Int
  marital_status : String
  deriving DecidableEq, Repr

/-- HDBOfficer: applicant data plus the officer-assignment fields. -/
structure OfficerRec where
  userID : Nat
  age : Int
  marital_status : String
  handling_project : Option Nat
  registration_status : Option RegStatus
  registered_project : Option Nat
  deriving DecidableEq, Repr

/-- Lookup in a flatTypes association list (Python dict access, first
matching key). -/
def lookupFT : List (String × FlatInfo) → String → Option FlatInfo
  | [], _ => none
  | kv :: rest, ft => if kv.1 = ft then some kv.2 else lookupFT rest ft

/-- BTOProject.reduceUnits: if flat_type is a key, subtract num from its
unit count and clamp the result at zero; otherwise do nothing. -/
def reduceUnits (p : BTOProject) (flat_type : String) (num : Int) : BTOProject :=
  if (lookupFT p.flatTypes flat_type).isSome then
    { p with flatTypes := p.flatTypes.map (fun kv =>
        if kv.1 = flat_type then
          (kv.1, { kv.2 with units := if kv.2.units - num < 0 then 0 else kv.2.units - num })
        else kv) }
  else p

/-- Whether marital status reads as single (source compares lowercased). -/
def isSingle (a : ApplicantRec) : Bool := a.marital_status.toLower == "single"

/-- The eligibility gate of Applicant.applyForProject: singles must be at
least 35 and may only take 2-Room; non-singles must be at least 21 and may
take 2-Room or 3-Room. -/
def eligibilityCheck (a : ApplicantRec) (flat_type : String) : Except OpError Unit :=
  if isSingle a then
    if a.age < 35 then .error .EligibilityDenied
    else if flat_type ≠ "2-Room" then .error .EligibilityDenied
    else .ok ()
  else
    if a.age < 21 then .error .EligibilityDenied
    else if ¬ (flat_type = "2-Room" ∨ flat_type = "3-Room") then .error .EligibilityDenied
    else .ok ()

/-- The statuses counted as active by the duplicate-application check. -/
def isActiveStatus : AppStatus → Bool
  | .Pending => true
  | .Successful => true
  | _ => false

/-- Application.__init__: a fresh application is Pending with no
withdrawal requested. -/
def mkApplication (applicant : ApplicantRec) (project : BTOProject)
    (chosen_flat_type : String) : Application :=
  { applicantID := applicant.userID
    projectID := project.projectID
    applicationStatus := .Pending
    chosen_flat_type := chosen_flat_type
    requested_withdrawal := false }

/-- Applicant.applyForProject: duplicate-active check, eligibility gate,
unit-availability check, then creation of a Pending application.
ownApps is the applicant's own application list (self.applications). -/
def applyForProject (a : ApplicantRec) (ownApps : List Application) (project : BTOProject)
    (flat_type : String) : Except OpError Application :=
  if ownApps.filter (fun app => isActiveStatus app.applicationStatus) ≠ [] then
    .error .DuplicateActiveApplication
  else
    match eligibilityCheck a flat_type with
    | .error e => .error e
    | .ok _ =>
      match lookupFT project.flatTypes flat_type with
      | none => .error .KeyError
      | some info =>
        if info.units ≤ 0 then .error .UnitsExhausted
        else .ok (mkApplication a project flat_type)

/-- Application.updateStatus: the raw status setter. -/
def updateStatus (application : Application) (new_status : AppStatus) : Application :=
  { application with applicationStatus := new_status }

/-- HDBManager.approveOrRejectApplication: ownership and Pending guards;
approve succeeds only when the chosen flat type still has units
(unguarded dict lookup on the chosen flat type), reject is unconditional. -/
def approveOrRejectApplication (mid : Nat) (project : BTOProject) (application : Application)
    (decision : Bool) : Except OpError Application :=
  if project.manager ≠ mid then .error .AuthorizationDenied
  else if application.applicationStatus ≠ .Pending then .error .InvalidStateTransition
  else if decision then
    match lookupFT project.flatTypes application.chosen_flat_type with
    | none => .error .KeyError
    | some info =>
      if 0 < info.units then .ok (updateStatus application .Successful)
      else .error .UnitsExhausted
  else .ok (updateStatus application .Unsuccessful)

/-- HDBManager.approveOrRejectWithdrawal: ownership and flag guards;
approve moves Pending or Successful to Unsuccessful and clears the flag,
reject only clears the flag. -/
def approveOrRejectWithdrawal (mid : Nat) (project : BTOProject) (application : Application)
    (decision : Bool) : Except OpError Application :=
  if project.manager ≠ mid then .error .AuthorizationDenied
  else if ¬ application.requested_withdrawal then .error .InvalidStateTransition
  else if decision then
    if application.applicationStatus = .Pending ∨ application.applicationStatus = .Successful then
      .ok { updateStatus application .Unsuccessful with requested_withdrawal := false }
    else .error .InvalidStateTransition
  else .ok { application with requested_withdrawal := false }

/-- HDBOfficer.registerToProject: refused while handling a project or
holding any application against the target project. -/
def registerToProject (officer : OfficerRec) (ownApps : List Application)
    (project : BTOProject) : Except OpError OfficerRec :=
  if officer.handling_project ≠ none then .error .InvalidStateTransition
  else if ownApps.any (fun app => app.projectID == project.projectID) then
    .error .InvalidStateTransition
  else .ok { officer with registered_project := some project.projectID,
                          registration_status := some .Pending }

/-- HDBManager.approveOrRejectHDBOfficerRegistration: registration,
ownership and Pending guards; approval checks slot capacity before
appending the officer and setting handling_project and Approved. -/
def approveOrRejectHDBOfficerRegistration (mid : Nat) (officer : OfficerRec)
    (project : BTOProject) (decision : Bool) : Except OpError (OfficerRec × BTOProject) :=
  if officer.registered_project = none then .error .NotFound
  else if project.manager ≠ mid then .error .AuthorizationDenied
  else if officer.registration_status ≠ some .Pending then .error .InvalidStateTransition
  else if decision then
    if project.officerSlot ≤ project.officers.length then .error .SlotExhausted
    else .ok ({ officer with handling_project := some project.projectID,
                             registration_status := some .Approved },
              { project with officers := project.officers ++ [officer.userID] })
  else .ok ({ officer with registration_status := some .Rejected }, project)

/-- ProjectController.findProjectByID. -/
def findProjectByID : List BTOProject → Nat → Option BTOProject
  | [], _ => none
  | p :: rest, pid => if p.projectID = pid then some p else findProjectByID rest pid

/-- Resolve an applicant record by user ID. -/
def findApplicant : List ApplicantRec → Nat → Option ApplicantRec
  | [], _ => none
  | a :: rest, uid => if a.userID = uid then some a else findApplicant rest uid

/-- Resolve an officer record by user ID. -/
def findOfficer : List OfficerRec → Nat → Option OfficerRec
  | [], _ => none
  | o :: rest, uid => if o.userID = uid then some o else findOfficer rest uid

/-- Replace the first project with the given ID (mutation of the object a
lookup by ID would return). -/
def updateProject (f : BTOProject → BTOProject) : List BTOProject → Nat → List BTOProject
  | [], _ => []
  | p :: rest, pid => if p.projectID = pid then f p :: rest else p :: updateProject f rest pid

/-- Replace the first officer with the given user ID. -/
def updateOfficer (f : OfficerRec → OfficerRec) : List OfficerRec → Nat → List OfficerRec
  | [], _ => []
  | o :: rest, oid => if o.userID = oid then f o :: rest else o :: updateOfficer f rest oid

/-- The in-memory state the CLI session mutates: project registry,
user records and the application controller's list. -/
structure State where
  projects : List BTOProject
  applicants : List ApplicantRec
  officers : List OfficerRec
  applications : List Application
  deriving Repr

/-- A user's own application list (self.applications stays in sync with
the controller's list because the objects are shared). -/
def ownApplications (s : State) (uid : Nat) : List Application :=
  s.applications.filter (fun app => app.applicantID == uid)

/-- The core operations a session can invoke. Applications are addressed
by their index in the controller's list. -/
inductive Op where
  | applyForProject (aid pid : Nat) (flat_type : String)
  | approveApplication (mid i : Nat) (decision : Bool)
  | requestWithdrawal (aid i : Nat)
  | approveWithdrawal (mid i : Nat) (decision : Bool)
  | registerToProject (oid pid : Nat)
  | approveOfficerReg (mid oid : Nat) (decision : Bool)
  | updateFlatAvailability (oid pid : Nat) (flat_type : String) (num : Int)
  | bookFlat (oid i : Nat)
  deriving DecidableEq, Repr

/-- State transition for Applicant.applyForProject: on success the new
application is appended; every failure leaves the state unchanged. -/
def stepApply (s : State) (aid pid : Nat) (flat_type : String) : State :=
  match findApplicant s.applicants aid, findProjectByID s.projects pid with
  | some a, some project =>
    match applyForProject a (ownApplications s aid) project flat_type with
    | .ok app => { s with applications := s.applications ++ [app] }
    | .error _ => s
  | _, _ => s

/-- State transition for HDBManager.approveOrRejectApplication. -/
def stepApproveApplication (s : State) (mid i : Nat) (decision : Bool) : State :=
  match s.applications[i]? with
  | some app =>
    match findProjectByID s.projects app.projectID with
    | some project =>
      match approveOrRejectApplication mid project app decision with
      | .ok app2 => { s with applications := s.applications.set i app2 }
      | .error _ => s
    | none => s
  | none => s

/-- State transition for Applicant.requestWithdrawal: refused on
Unsuccessful or Booked applications, otherwise sets the flag. -/
def stepRequestWithdrawal (s : State) (aid i : Nat) : State :=
  match s.applications[i]? with
  | some app =>
    if app.applicantID = aid then
      if app.applicationStatus = .Unsuccessful ∨ app.applicationStatus = .Booked then s
      else { s with applications := s.applications.set i { app with requested_withdrawal := true } }
    else s
  | none => s

/-- State transition for HDBManager.approveOrRejectWithdrawal. -/
def stepApproveWithdrawal (s : State) (mid i : Nat) (decision : Bool) : State :=
  match s.applications[i]? with
  | some app =>
    match findProjectByID s.projects app.projectID with
    | some project =>
      match approveOrRejectWithdrawal mid project app decision with
      | .ok app2 => { s with applications := s.applications.set i app2 }
      | .error _ => s
    | none => s
  | none => s

/-- State transition for HDBOfficer.registerToProject. -/
def stepRegisterToProject (s : State) (oid pid : Nat) : State :=
  match findOfficer s.officers oid, findProjectByID s.projects pid with
  | some officer, some project =>
    match registerToProject officer (ownApplications s oid) project with
    | .ok officer2 => { s with officers := updateOfficer (fun _ => officer2) s.officers oid }
    | .error _ => s
  | _, _ => s

/-- State transition for approveOrRejectHDBOfficerRegistration: on
approval both the officer record and the registered project change. -/
def stepApproveOfficerReg (s : State) (mid oid : Nat) (decision : Bool) : State :=
  match findOfficer s.officers oid with
  | some officer =>
    match officer.registered_project with
    | some pid =>
      match findProjectByID s.projects pid with
      | some project =>
        match approveOrRejectHDBOfficerRegistration mid officer project decision with
        | .ok (officer2, project2) =>
          { s with officers := updateOfficer (fun _ => officer2) s.officers oid,
                   projects := updateProject (fun _ => project2) s.projects pid }
        | .error _ => s
      | none => s
    | none => s
  | none => s

/-- State transition for HDBOfficer.updateFlatAvailability: an officer
handling the project reduces its units for a flat type. -/
def stepUpdateFlatAvailability (s : State) (oid pid : Nat) (flat_type : String)
    (num : Int) : State :=
  match findOfficer s.officers oid with
  | some officer =>
    if officer.handling_project ≠ some pid then s
    else { s with projects := updateProject (fun p => reduceUnits p flat_type num) s.projects pid }
  | none => s

/-- Modelled from the spec: the booking orchestration (spec 4.3, an
officer action declared external to this core) has no function of its
own in the source, which only supplies the consumed pieces
Application.updateStatus and BTOProject.reduceUnits and the handling
guard of HDBOfficer.updateFlatAvailability. Per the spec, when status is
Successful and a unit is physically allocated, the status becomes Booked
and the unit count is decremented via reduceUnits. -/
def stepBookFlat (s : State) (oid i : Nat) : State :=
  match s.applications[i]? with
  | some app =>
    if app.applicationStatus = .Successful then
      match findOfficer s.officers oid with
      | some officer =>
        if officer.handling_project = some app.projectID then
          { s with applications := s.applications.set i (updateStatus app .Booked),
                   projects := updateProject (fun p => reduceUnits p app.chosen_flat_type 1)
                     s.projects app.projectID }
        else s
      | none => s
    else s
  | none => s

/-- One step of the session: dispatch an operation. -/
def step (s : State) : Op → State
  | .applyForProject aid pid ft => stepApply s aid pid ft
  | .approveApplication mid i d => stepApproveApplication s mid i d
  | .requestWithdrawal aid i => stepRequestWithdrawal s aid i
  | .approveWithdrawal mid i d => stepApproveWithdrawal s mid i d
  | .registerToProject oid pid => stepRegisterToProject s oid pid
  | .approveOfficerReg mid oid d => stepApproveOfficerReg s mid oid d
  | .updateFlatAvailability oid pid ft num => stepUpdateFlatAvailability s oid pid ft num
  | .bookFlat oid i => stepBookFlat s oid i

/-- Run a sequence of operations. -/
def run (s : State) : List Op → State
  | [] => s
  | op :: ops => run (step s op) ops

/-! Helper lemmas on lookups and updates. -/

theorem lookupFT_map_key (l : List (String × FlatInfo)) (flat_type x : String)
    (g : FlatInfo → FlatInfo) :
    lookupFT (l.map (fun kv => if kv.1 = flat_type then (kv.1, g kv.2) else kv)) x =
      if x = flat_type then (lookupFT l x).map g else lookupFT l x := by
  induction l with
  | nil => by_cases h : x = flat_type <;> simp [lookupFT, h]
  | cons kv rest ih =>
    simp only [List.map_cons]
    by_cases h1 : kv.1 = flat_type
    · by_cases h2 : x = flat_type
      · subst h2
        simp [lookupFT, h1, ih]
      · have hfx : ¬ flat_type = x := fun hc => h2 hc.symm
        simp [lookupFT, h1, hfx, ih, h2]
    · by_cases h2 : kv.1 = x
      · have hxf : ¬ x = flat_type := by
          intro hc
          exact h1 (h2.trans hc)
        simp [lookupFT, h1, h2, hxf]
      · simp [lookupFT, h1, h2, ih]

theorem reduceUnits_projectID (p : BTOProject) (flat_type : String) (num : Int) :
    (reduceUnits p flat_type num).projectID = p.projectID := by
  unfold reduceUnits; split <;> rfl

theorem reduceUnits_officers (p : BTOProject) (flat_type : String) (num : Int) :
    (reduceUnits p flat_type num).officers = p.officers ∧
      (reduceUnits p flat_type num).officerSlot = p.officerSlot := by
  unfold reduceUnits; split <;> exact ⟨rfl, rfl⟩

theorem lookupFT_reduceUnits (p : BTOProject) (flat_type x : String) (num : Int) :
    lookupFT (reduceUnits p flat_type num).flatTypes x =
      if x = flat_type then
        (lookupFT p.flatTypes x).map
          (fun info => { info with units := if info.units - num < 0 then 0 else info.units - num })
      else lookupFT p.flatTypes x := by
  unfold reduceUnits
  by_cases h : (lookupFT p.flatTypes flat_type).isSome
  · simp only [h, if_true]
    exact lookupFT_map_key p.flatTypes flat_type x
      (fun info => { info with units := if info.units - num < 0 then 0 else info.units - num })
  · simp only [h, if_false]
    by_cases hx : x = flat_type
    · subst hx
      rw [Option.not_isSome_iff_eq_none] at h
      simp [h]
    · simp [hx]

/-- C7: reduceUnits subtracts the count from the flat type's unit count
clamping the result at zero, so a non-negative unit count never becomes
negative for any count; when the flat type is not a key of the project's
flat-type mapping the operation is a no-op. -/
theorem C7_reduceUnits_clamps (p : BTOProject) (flat_type : String) (num : Int) :
    (lookupFT p.flatTypes flat_type = none → reduceUnits p flat_type num = p) ∧
    (∀ info, lookupFT p.flatTypes flat_type = some info →
      lookupFT (reduceUnits p flat_type num).flatTypes flat_type =
        some { info with units := if info.units - num < 0 then 0 else info.units - num }) ∧
    (∀ info, lookupFT p.flatTypes flat_type = some info → 0 ≤ info.units →
      ∀ info2, lookupFT (reduceUnits p flat_type num).flatTypes flat_type = some info2 →
        0 ≤ info2.units) := by
  refine ⟨?_, ?_, ?_⟩
  · intro h
    unfold reduceUnits
    simp [h]
  · intro info h
    rw [lookupFT_reduceUnits, if_pos rfl, h]
    rfl
  · intro info h _ info2 h2
    rw [lookupFT_reduceUnits, if_pos rfl, h] at h2
    have h3 : ({ info with
        units := if info.units - num < 0 then 0 else info.units - num } : FlatInfo) = info2 :=
      Option.some.inj h2
    rw [← h3]
    dsimp only
    split <;> omega

/-- C7 witness: a concrete decrement of 5 from 3 units of 2-Room clamps
the count at zero rather than going negative. -/
theorem C7_reduceUnits_clamps_witness :
    0 ≤ (FlatInfo.mk (if (3 : Int) - 5 < 0 then 0 else 3 - 5) 100).units :=
  (C7_reduceUnits_clamps
      { projectID := 1, projectName := "Acacia", neighborhood := "N",
        flatTypes := [("2-Room", ⟨3, 100⟩)], manager := 9, officers := [],
        visibility := true, officerSlot := 1 } "2-Room" 5).2.2
    ⟨3, 100⟩ rfl (by decide) _
    (((C7_reduceUnits_clamps
      { projectID := 1, projectName := "Acacia", neighborhood := "N",
        flatTypes := [("2-Room", ⟨3, 100⟩)], manager := 9, officers := [],
        visibility := true, officerSlot := 1 } "2-Room" 5).2.1 ⟨3, 100⟩ rfl))

/-- C3: the flat types a person may apply for are none when single and
younger than 35, exactly 2-Room when single and 35 or older, none when
not single and younger than 21, and exactly 2-Room and 3-Room when not
single and 21 or older. -/
theorem C3_eligibleFlatTypes (a : ApplicantRec) (flat_type : String) :
    eligibilityCheck a flat_type = Except.ok () ↔
      ((isSingle a = true ∧ 35 ≤ a.age ∧ flat_type = "2-Room") ∨
       (isSingle a = false ∧ 21 ≤ a.age ∧ (flat_type = "2-Room" ∨ flat_type = "3-Room"))) := by
  unfold eligibilityCheck
  by_cases h : isSingle a <;> simp only [h, if_true, if_false, Bool.true_eq_false,
    Bool.false_eq_true, false_and, and_false, or_false, false_or] <;>
    split_ifs <;> simp_all

theorem applyForProject_ok_inv (a : ApplicantRec) (ownApps : List Application)
    (project : BTOProject) (flat_type : String) (app : Application)
    (h : applyForProject a ownApps project flat_type = Except.ok app) :
    app = mkApplication a project flat_type ∧
      ∃ info, lookupFT project.flatTypes flat_type = some info ∧ 0 < info.units := by
  unfold applyForProject at h
  split at h
  · exact absurd h (by simp)
  · split at h
    · exact absurd h (by simp)
    · split at h
      · exact absurd h (by simp)
      · next info hl =>
        split at h
        · exact absurd h (by simp)
        · next hu => exact ⟨(Except.ok.inj h).symm, info, hl, by omega⟩

/-- C1: manager approve/reject of an application requires Pending status
and project ownership; approving with remaining units positive yields
Successful, with units exhausted it fails with UnitsExhausted; rejecting
yields Unsuccessful unconditionally; any failure leaves the session state
(hence the status) unchanged. -/
theorem C1_approveOrRejectApplication (mid : Nat) (project : BTOProject)
    (application : Application) :
    (∀ d, project.manager ≠ mid →
      approveOrRejectApplication mid project application d =
        Except.error OpError.AuthorizationDenied) ∧
    (∀ d, project.manager = mid → application.applicationStatus ≠ AppStatus.Pending →
      approveOrRejectApplication mid project application d =
        Except.error OpError.InvalidStateTransition) ∧
    (project.manager = mid → application.applicationStatus = AppStatus.Pending →
      (∀ info, lookupFT project.flatTypes application.chosen_flat_type = some info →
        (0 < info.units →
          approveOrRejectApplication mid project application true =
            Except.ok (updateStatus application AppStatus.Successful)) ∧
        (info.units ≤ 0 →
          approveOrRejectApplication mid project application true =
            Except.error OpError.UnitsExhausted)) ∧
      approveOrRejectApplication mid project application false =
        Except.ok (updateStatus application AppStatus.Unsuccessful)) ∧
    (∀ s i d err, s.applications[i]? = some application →
      findProjectByID s.projects application.projectID = some project →
      approveOrRejectApplication mid project application d = Except.error err →
      step s (Op.approveApplication mid i d) = s) := by
  refine ⟨?_, ?_, ?_, ?_⟩
  · intro d h
    unfold approveOrRejectApplication
    rw [if_pos h]
  · intro d h1 h2
    unfold approveOrRejectApplication
    rw [if_neg (fun hc => hc h1), if_pos h2]
  · intro h1 h2
    refine ⟨fun info hl => ⟨fun hu => ?_, fun hu => ?_⟩, ?_⟩
    · unfold approveOrRejectApplication
      rw [if_neg (fun hc => hc h1), if_neg (not_not_intro h2)]
      simp [hl, if_pos hu]
    · unfold approveOrRejectApplication
      rw [if_neg (fun hc => hc h1), if_neg (not_not_intro h2)]
      simp only [if_true, hl]
      rw [if_neg (by omega)]
    · unfold approveOrRejectApplication
      rw [if_neg (fun hc => hc h1), if_neg (not_not_intro h2)]
      simp
  · intro s i d err h1 h2 h3
    simp [step, stepApproveApplication, h1, h2, h3]

/-- C2: creating an application fails on an existing active (Pending or
Successful) application, on an ineligible flat type, and on zero
remaining units; every failure creates no application; a successful
creation is Pending with the withdrawal flag cleared. -/
theorem C2_applyForProject (a : ApplicantRec) (ownApps : List Application)
    (project : BTOProject) (flat_type : String) :
    ((∃ app ∈ ownApps, isActiveStatus app.applicationStatus = true) →
      applyForProject a ownApps project flat_type =
        Except.error OpError.DuplicateActiveApplication) ∧
    (∀ e, eligibilityCheck a flat_type = Except.error e →
      ∃ e2, applyForProject a ownApps project flat_type = Except.error e2) ∧
    (∀ info, lookupFT project.flatTypes flat_type = some info → info.units ≤ 0 →
      ∃ e2, applyForProject a ownApps project flat_type = Except.error e2) ∧
    (∀ app, applyForProject a ownApps project flat_type = Except.ok app →
      app.applicationStatus = AppStatus.Pending ∧ app.requested_withdrawal = false) ∧
    (∀ s aid pid ft,
      (step s (Op.applyForProject aid pid ft)).applications = s.applications ∨
      ∃ app, (step s (Op.applyForProject aid pid ft)).applications = s.applications ++ [app] ∧
        app.applicationStatus = AppStatus.Pending ∧ app.requested_withdrawal = false) := by
  refine ⟨?_, ?_, ?_, ?_, ?_⟩
  · rintro ⟨app, hmem, hact⟩
    unfold applyForProject
    rw [if_pos ?_]
    intro hnil
    rw [List.filter_eq_nil_iff] at hnil
    exact hnil app hmem hact
  · intro e he
    by_cases h1 : (ownApps.filter (fun app => isActiveStatus app.applicationStatus)) ≠ []
    · exact ⟨OpError.DuplicateActiveApplication, by unfold applyForProject; rw [if_pos h1]⟩
    · refine ⟨e, ?_⟩
      unfold applyForProject
      rw [if_neg h1]
      simp [he]
  · intro info hl hu
    by_cases h1 : (ownApps.filter (fun app => isActiveStatus app.applicationStatus)) ≠ []
    · exact ⟨OpError.DuplicateActiveApplication, by unfold applyForProject; rw [if_pos h1]⟩
    · cases he : eligibilityCheck a flat_type with
      | error e =>
        refine ⟨e, ?_⟩
        unfold applyForProject
        rw [if_neg h1]
        simp [he]
      | ok u =>
        refine ⟨OpError.UnitsExhausted, ?_⟩
        unfold applyForProject
        rw [if_neg h1]
        simp [he, hl, if_pos hu]
  · intro app h
    obtain ⟨happ, -⟩ := applyForProject_ok_inv a ownApps project flat_type app h
    rw [happ]
    exact ⟨rfl, rfl⟩
  · intro s aid pid ft
    simp only [step, stepApply]
    cases hfa : findApplicant s.applicants aid with
    | none => left; rfl
    | some a2 =>
      cases hfp : findProjectByID s.projects pid with
      | none => left; rfl
      | some project2 =>
        cases hap : applyForProject a2 (ownApplications s aid) project2 ft with
        | error e => left; simp [hap]
        | ok app =>
          right
          obtain ⟨happ, -⟩ := applyForProject_ok_inv a2 (ownApplications s aid) project2 ft app hap
          exact ⟨app, by simp [hap], by rw [happ]; exact rfl, by rw [happ]; exact rfl⟩

/-- C5: manager approve/reject of a withdrawal requires the withdrawal
flag and project ownership; approving on Pending or Successful yields
Unsuccessful with the flag cleared, approving in any other status fails;
rejecting clears the flag and keeps the status; any failure leaves the
session state unchanged. -/
theorem C5_approveOrRejectWithdrawal (mid : Nat) (project : BTOProject)
    (application : Application) :
    (∀ d, project.manager ≠ mid →
      approveOrRejectWithdrawal mid project application d =
        Except.error OpError.AuthorizationDenied) ∧
    (∀ d, project.manager = mid → application.requested_withdrawal = false →
      approveOrRejectWithdrawal mid project application d =
        Except.error OpError.InvalidStateTransition) ∧
    (project.manager = mid → application.requested_withdrawal = true →
      ((application.applicationStatus = AppStatus.Pending ∨
          application.applicationStatus = AppStatus.Successful) →
        approveOrRejectWithdrawal mid project application true =
          Except.ok { application with applicationStatus := AppStatus.Unsuccessful,
                                       requested_withdrawal := false }) ∧
      (¬ (application.applicationStatus = AppStatus.Pending ∨
          application.applicationStatus = AppStatus.Successful) →
        approveOrRejectWithdrawal mid project application true =
          Except.error OpError.InvalidStateTransition) ∧
      approveOrRejectWithdrawal mid project application false =
        Except.ok { application with requested_withdrawal := false }) ∧
    (∀ s i d err, s.applications[i]? = some application →
      findProjectByID s.projects application.projectID = some project →
      approveOrRejectWithdrawal mid project application d = Except.error err →
      step s (Op.approveWithdrawal mid i d) = s) := by
  refine ⟨?_, ?_, ?_, ?_⟩
  · intro d h
    unfold approveOrRejectWithdrawal
    rw [if_pos h]
  · intro d h1 h2
    unfold approveOrRejectWithdrawal
    rw [if_neg (fun hc => hc h1), if_pos (by rw [h2]; exact Bool.false_ne_true)]
  · intro h1 h2
    refine ⟨fun hst => ?_, fun hst => ?_, ?_⟩
    · unfold approveOrRejectWithdrawal
      rw [if_neg (fun hc => hc h1), if_neg (by rw [h2]; simp), if_pos rfl, if_pos hst]
      rfl
    · unfold approveOrRejectWithdrawal
      rw [if_neg (fun hc => hc h1), if_neg (by rw [h2]; simp), if_pos rfl, if_neg hst]
    · unfold approveOrRejectWithdrawal
      rw [if_neg (fun hc => hc h1), if_neg (by rw [h2]; simp), if_neg Bool.false_ne_true]
  · intro s i d err h1 h2 h3
    simp [step, stepApproveWithdrawal, h1, h2, h3]

/-! Inversion lemmas: what a successful call tells about its guards. -/

theorem approveOrRejectApplication_ok_inv (mid : Nat) (project : BTOProject)
    (application : Application) (d : Bool) (app2 : Application)
    (h : approveOrRejectApplication mid project application d = Except.ok app2) :
    application.applicationStatus = AppStatus.Pending ∧
      (app2 = updateStatus application AppStatus.Successful ∨
       app2 = updateStatus application AppStatus.Unsuccessful) := by
  unfold approveOrRejectApplication at h
  split at h
  · exact absurd h (by simp)
  · next h1 =>
    split at h
    · exact absurd h (by simp)
    · next h2 =>
      have hp : application.applicationStatus = AppStatus.Pending := not_not.mp h2
      split at h
      · split at h
        · exact absurd h (by simp)
        · split at h
          · exact ⟨hp, Or.inl (Except.ok.inj h).symm⟩
          · exact absurd h (by simp)
      · exact ⟨hp, Or.inr (Except.ok.inj h).symm⟩

theorem approveOrRejectWithdrawal_ok_inv (mid : Nat) (project : BTOProject)
    (application : Application) (d : Bool) (app2 : Application)
    (h : approveOrRejectWithdrawal mid project application d = Except.ok app2) :
    app2.projectID = application.projectID ∧
    app2.chosen_flat_type = application.chosen_flat_type ∧
    (app2.applicationStatus = application.applicationStatus ∨
      ((application.applicationStatus = AppStatus.Pending ∨
        application.applicationStatus = AppStatus.Successful) ∧
       app2.applicationStatus = AppStatus.Unsuccessful)) := by
  unfold approveOrRejectWithdrawal at h
  split at h
  · exact absurd h (by simp)
  · split at h
    · exact absurd h (by simp)
    · split at h
      · split at h
        · next hst =>
          have he := (Except.ok.inj h).symm
          subst he
          exact ⟨rfl, rfl, Or.inr ⟨hst, rfl⟩⟩
        · exact absurd h (by simp)
      · have he := (Except.ok.inj h).symm
        subst he
        exact ⟨rfl, rfl, Or.inl rfl⟩

theorem approveOrRejectHDBOfficerRegistration_ok_inv (mid : Nat) (officer : OfficerRec)
    (project : BTOProject) (d : Bool) (officer2 : OfficerRec) (project2 : BTOProject)
    (h : approveOrRejectHDBOfficerRegistration mid officer project d =
      Except.ok (officer2, project2)) :
    project.manager = mid ∧ officer.registration_status = some RegStatus.Pending ∧
      (project2 = project ∨
        (project2 = { project with officers := project.officers ++ [officer.userID] } ∧
         project.officers.length < project.officerSlot)) := by
  unfold approveOrRejectHDBOfficerRegistration at h
  split at h
  · exact absurd h (by simp)
  · split at h
    · exact absurd h (by simp)
    · next h1 =>
      split at h
      · exact absurd h (by simp)
      · next h2 =>
        have hm : project.manager = mid := not_not.mp h1
        have hs : officer.registration_status = some RegStatus.Pending := not_not.mp h2
        split at h
        · split at h
          · exact absurd h (by simp)
          · next h3 =>
            have he := Except.ok.inj h
            refine ⟨hm, hs, Or.inr ⟨?_, by omega⟩⟩
            exact (congrArg Prod.snd he).symm
        · have he := Except.ok.inj h
          exact ⟨hm, hs, Or.inl (congrArg Prod.snd he).symm⟩

/-! Lookup and update lemmas for the project registry. -/

theorem findProjectByID_some (ps : List BTOProject) (pid : Nat) (p : BTOProject)
    (h : findProjectByID ps pid = some p) : p ∈ ps ∧ p.projectID = pid := by
  induction ps with
  | nil => exact absurd h (by simp [findProjectByID])
  | cons q rest ih =>
    unfold findProjectByID at h
    split at h
    · next hq =>
      rw [Option.some_inj] at h
      subst h
      exact ⟨List.mem_cons_self _ _, hq⟩
    · obtain ⟨h1, h2⟩ := ih h
      exact ⟨List.mem_cons_of_mem _ h1, h2⟩

theorem mem_updateProject (f : BTOProject → BTOProject) (ps : List BTOProject) (pid : Nat)
    (q : BTOProject) (h : q ∈ updateProject f ps pid) :
    q ∈ ps ∨ ∃ p, p ∈ ps ∧ q = f p := by
  induction ps with
  | nil => exact absurd h (by simp [updateProject])
  | cons p0 rest ih =>
    unfold updateProject at h
    split at h
    · rcases List.mem_cons.mp h with h1 | h1
      · exact Or.inr ⟨p0, List.mem_cons_self _ _, h1⟩
      · exact Or.inl (List.mem_cons_of_mem _ h1)
    · rcases List.mem_cons.mp h with h1 | h1
      · exact Or.inl (by rw [h1]; exact List.mem_cons_self _ _)
      · rcases ih h1 with h2 | ⟨p, hp, he⟩
        · exact Or.inl (List.mem_cons_of_mem _ h2)
        · exact Or.inr ⟨p, List.mem_cons_of_mem _ hp, he⟩

theorem findProjectByID_updateProject (f : BTOProject → BTOProject) (ps : List BTOProject)
    (pid x : Nat) (hf : ∀ p, (f p).projectID = p.projectID) :
    findProjectByID (updateProject f ps pid) x =
      if x = pid then (findProjectByID ps pid).map f else findProjectByID ps x := by
  induction ps with
  | nil =>
    unfold updateProject findProjectByID
    split <;> rfl
  | cons p0 rest ih =>
    unfold updateProject
    by_cases h0 : p0.projectID = pid
    · rw [if_pos h0]
      by_cases hx : x = pid
      · subst hx
        simp [findProjectByID, hf p0, h0]
      · have hnx : ¬ (f p0).projectID = x := by rw [hf p0, h0]; exact fun hc => hx hc.symm
        have hnx2 : ¬ p0.projectID = x := by rw [h0]; exact fun hc => hx hc.symm
        simp [findProjectByID, hnx, hnx2, hx]
    · rw [if_neg h0]
      by_cases h2 : p0.projectID = x
      · have hx : ¬ x = pid := fun hc => h0 (h2.trans hc)
        simp [findProjectByID, h2, hx]
      · simp [findProjectByID, h2, ih, h0]

theorem findProjectByID_updateProject_const (ps : List BTOProject) (pid x : Nat)
    (q p0 : BTOProject) (hfind : findProjectByID ps pid = some p0)
    (hq : q.projectID = p0.projectID) :
    findProjectByID (updateProject (fun _ => q) ps pid) x =
      if x = pid then some q else findProjectByID ps x := by
  have hp0 : p0.projectID = pid := (findProjectByID_some ps pid p0 hfind).2
  induction ps with
  | nil => exact absurd hfind (by simp [findProjectByID])
  | cons ph rest ih =>
    unfold updateProject
    by_cases h0 : ph.projectID = pid
    · rw [if_pos h0]
      by_cases hx : x = pid
      · subst hx
        simp [findProjectByID, hq, hp0]
      · have hn1 : ¬ q.projectID = x := by rw [hq, hp0]; exact fun hc => hx hc.symm
        have hn2 : ¬ ph.projectID = x := by rw [h0]; exact fun hc => hx hc.symm
        simp [findProjectByID, hn1, hn2, hx]
    · rw [if_neg h0]
      have hrest : findProjectByID rest pid = some p0 := by
        unfold findProjectByID at hfind
        rwa [if_neg h0] at hfind
      by_cases h2 : ph.projectID = x
      · have hx : ¬ x = pid := fun hc => h0 (h2.trans hc)
        simp [findProjectByID, h2, hx]
      · simp only [findProjectByID, h2, if_false]
        exact ih hrest

theorem map_pid_ft_updateProject_const (ps : List BTOProject) (pid : Nat) (q : BTOProject)
    (h : ∀ p0, findProjectByID ps pid = some p0 →
      q.projectID = p0.projectID ∧ q.flatTypes = p0.flatTypes) :
    (updateProject (fun _ => q) ps pid).map (fun p => (p.projectID, p.flatTypes)) =
      ps.map (fun p => (p.projectID, p.flatTypes)) := by
  induction ps with
  | nil => rfl
  | cons p0 rest ih =>
    unfold updateProject
    by_cases h0 : p0.projectID = pid
    · rw [if_pos h0]
      obtain ⟨hq1, hq2⟩ := h p0 (by unfold findProjectByID; rw [if_pos h0])
      simp [hq1, hq2]
    · rw [if_neg h0]
      have hrest : ∀ p1, findProjectByID rest pid = some p1 →
          q.projectID = p1.projectID ∧ q.flatTypes = p1.flatTypes := by
        intro p1 h1
        refine h p1 ?_
        unfold findProjectByID
        rwa [if_neg h0]
      simp only [List.map_cons, ih hrest]

/-! Frame lemmas: which state components each operation leaves alone. -/

theorem stepApply_frame (s : State) (aid pid : Nat) (ft : String) :
    (stepApply s aid pid ft).projects = s.projects ∧
      (stepApply s aid pid ft).officers = s.officers := by
  unfold stepApply
  split
  · split <;> exact ⟨rfl, rfl⟩
  · exact ⟨rfl, rfl⟩

theorem stepApproveApplication_frame (s : State) (mid i : Nat) (d : Bool) :
    (stepApproveApplication s mid i d).projects = s.projects ∧
      (stepApproveApplication s mid i d).officers = s.officers := by
  unfold stepApproveApplication
  split
  · split
    · split <;> exact ⟨rfl, rfl⟩
    · exact ⟨rfl, rfl⟩
  · exact ⟨rfl, rfl⟩

theorem stepRequestWithdrawal_frame (s : State) (aid i : Nat) :
    (stepRequestWithdrawal s aid i).projects = s.projects ∧
      (stepRequestWithdrawal s aid i).officers = s.officers := by
  unfold stepRequestWithdrawal
  split
  · split
    · split <;> exact ⟨rfl, rfl⟩
    · exact ⟨rfl, rfl⟩
  · exact ⟨rfl, rfl⟩

theorem stepApproveWithdrawal_frame (s : State) (mid i : Nat) (d : Bool) :
    (stepApproveWithdrawal s mid i d).projects = s.projects ∧
      (stepApproveWithdrawal s mid i d).officers = s.officers := by
  unfold stepApproveWithdrawal
  split
  · split
    · split <;> exact ⟨rfl, rfl⟩
    · exact ⟨rfl, rfl⟩
  · exact ⟨rfl, rfl⟩

theorem stepRegisterToProject_frame (s : State) (oid pid : Nat) :
    (stepRegisterToProject s oid pid).projects = s.projects ∧
      (stepRegisterToProject s oid pid).applications = s.applications := by
  unfold stepRegisterToProject
  split
  · split <;> exact ⟨rfl, rfl⟩
  · exact ⟨rfl, rfl⟩

theorem stepApproveOfficerReg_applications (s : State) (mid oid : Nat) (d : Bool) :
    (stepApproveOfficerReg s mid oid d).applications = s.applications := by
  unfold stepApproveOfficerReg
  split
  · split
    · split
      · split <;> rfl
      · rfl
    · rfl
  · rfl

theorem stepUpdateFlatAvailability_frame (s : State) (oid pid : Nat) (ft : String)
    (num : Int) :
    (stepUpdateFlatAvailability s oid pid ft num).applications = s.applications ∧
      (stepUpdateFlatAvailability s oid pid ft num).officers = s.officers := by
  unfold stepUpdateFlatAvailability
  split
  · split <;> exact ⟨rfl, rfl⟩
  · exact ⟨rfl, rfl⟩

/-- The operations whose purpose is unit-availability accounting: the
officer's booking update and the modelled booking itself. -/
def touchesUnits : Op → Bool
  | .updateFlatAvailability _ _ _ _ => true
  | .bookFlat _ _ => true
  | _ => false

/-- C8: approving or rejecting an application never changes the project
registry at all, and no operation outside the booking pair changes any
project's flat-type unit mapping: unit counts fall only at booking. -/
theorem C8_approveFramesUnits :
    (∀ s mid i d, (step s (Op.approveApplication mid i d)).projects = s.projects) ∧
    (∀ s op, touchesUnits op = false →
      (step s op).projects.map (fun p => (p.projectID, p.flatTypes)) =
        s.projects.map (fun p => (p.projectID, p.flatTypes))) := by
  constructor
  · intro s mid i d
    exact (stepApproveApplication_frame s mid i d).1
  · intro s op hop
    cases op with
    | applyForProject aid pid ft =>
      simp only [step, (stepApply_frame s aid pid ft).1]
    | approveApplication mid i d =>
      simp only [step, (stepApproveApplication_frame s mid i d).1]
    | requestWithdrawal aid i =>
      simp only [step, (stepRequestWithdrawal_frame s aid i).1]
    | approveWithdrawal mid i d =>
      simp only [step, (stepApproveWithdrawal_frame s mid i d).1]
    | registerToProject oid pid =>
      simp only [step, (stepRegisterToProject_frame s oid pid).1]
    | approveOfficerReg mid oid d =>
      simp only [step]
      cases h1 : findOfficer s.officers oid with
      | none => simp [stepApproveOfficerReg, h1]
      | some officer =>
        cases h2 : officer.registered_project with
        | none => simp [stepApproveOfficerReg, h1, h2]
        | some pid =>
          cases h3 : findProjectByID s.projects pid with
          | none => simp [stepApproveOfficerReg, h1, h2, h3]
          | some project =>
            cases h4 : approveOrRejectHDBOfficerRegistration mid officer project d with
            | error e => simp [stepApproveOfficerReg, h1, h2, h3, h4]
            | ok pr =>
              obtain ⟨officer2, project2⟩ := pr
              obtain ⟨-, -, hcase⟩ := approveOrRejectHDBOfficerRegistration_ok_inv
                mid officer project d officer2 project2 h4
              simp only [stepApproveOfficerReg, h1, h2, h3, h4]
              refine map_pid_ft_updateProject_const s.projects pid project2 ?_
              intro p0 h0
              rw [h3, Option.some_inj] at h0
              subst h0
              rcases hcase with he | ⟨he, -⟩ <;> rw [he] <;> exact ⟨rfl, rfl⟩
    | updateFlatAvailability oid pid ft num => exact absurd hop (by simp [touchesUnits])
    | bookFlat oid i => exact absurd hop (by simp [touchesUnits])

/-- Invariant: no project holds more officers than its slot capacity. -/
def SlotInv (s : State) : Prop := ∀ p ∈ s.projects, p.officers.length ≤ p.officerSlot

theorem slotInv_step (s : State) (op : Op) (h : SlotInv s) : SlotInv (step s op) := by
  cases op with
  | applyForProject aid pid ft =>
    intro p hp
    rw [step, (stepApply_frame s aid pid ft).1] at hp
    exact h p hp
  | approveApplication mid i d =>
    intro p hp
    rw [step, (stepApproveApplication_frame s mid i d).1] at hp
    exact h p hp
  | requestWithdrawal aid i =>
    intro p hp
    rw [step, (stepRequestWithdrawal_frame s aid i).1] at hp
    exact h p hp
  | approveWithdrawal mid i d =>
    intro p hp
    rw [step, (stepApproveWithdrawal_frame s mid i d).1] at hp
    exact h p hp
  | registerToProject oid pid =>
    intro p hp
    rw [step, (stepRegisterToProject_frame s oid pid).1] at hp
    exact h p hp
  | approveOfficerReg mid oid d =>
    simp only [step]
    cases h1 : findOfficer s.officers oid with
    | none => simpa only [stepApproveOfficerReg, h1] using h
    | some officer =>
      cases h2 : officer.registered_project with
      | none => simpa only [stepApproveOfficerReg, h1, h2] using h
      | some pid =>
        cases h3 : findProjectByID s.projects pid with
        | none => simpa only [stepApproveOfficerReg, h1, h2, h3] using h
        | some project =>
          cases h4 : approveOrRejectHDBOfficerRegistration mid officer project d with
          | error e => simpa only [stepApproveOfficerReg, h1, h2, h3, h4] using h
          | ok pr =>
            obtain ⟨officer2, project2⟩ := pr
            obtain ⟨-, -, hcase⟩ := approveOrRejectHDBOfficerRegistration_ok_inv
              mid officer project d officer2 project2 h4
            simp only [stepApproveOfficerReg, h1, h2, h3, h4]
            intro p hp
            rcases mem_updateProject _ _ _ _ hp with hmem | ⟨p0, hp0, he⟩
            · exact h p hmem
            · rcases hcase with hpr | ⟨hpr, hlt⟩
              · rw [he, hpr]
                exact h project (findProjectByID_some s.projects pid project h3).1
              · rw [he, hpr]
                simp only [List.length_append, List.length_cons, List.length_nil]
                omega
  | updateFlatAvailability oid pid ft num =>
    simp only [step]
    cases h1 : findOfficer s.officers oid with
    | none => simpa only [stepUpdateFlatAvailability, h1] using h
    | some officer =>
      by_cases h2 : officer.handling_project ≠ some pid
      · simpa only [stepUpdateFlatAvailability, h1, if_pos h2] using h
      · simp only [stepUpdateFlatAvailability, h1, if_neg h2]
        intro p hp
        rcases mem_updateProject _ _ _ _ hp with hmem | ⟨p0, hp0, he⟩
        · exact h p hmem
        · rw [he, (reduceUnits_officers p0 ft num).1, (reduceUnits_officers p0 ft num).2]
          exact h p0 hp0
  | bookFlat oid i =>
    simp only [step]
    cases h1 : s.applications[i]? with
    | none => simpa only [stepBookFlat, h1] using h
    | some app =>
      by_cases h2 : app.applicationStatus = AppStatus.Successful
      · cases h3 : findOfficer s.officers oid with
        | none => simpa only [stepBookFlat, h1, if_pos h2, h3] using h
        | some officer =>
          by_cases h4 : officer.handling_project = some app.projectID
          · simp only [stepBookFlat, h1, if_pos h2, h3, if_pos h4]
            intro p hp
            rcases mem_updateProject _ _ _ _ hp with hmem | ⟨p0, hp0, he⟩
            · exact h p hmem
            · rw [he, (reduceUnits_officers p0 app.chosen_flat_type 1).1,
                (reduceUnits_officers p0 app.chosen_flat_type 1).2]
              exact h p0 hp0
          · simpa only [stepBookFlat, h1, if_pos h2, h3, if_neg h4] using h
      · simpa only [stepBookFlat, h1, if_neg h2] using h

/-- C9: the officer count of a project never exceeds its slot capacity
along any run; approving an officer registration requires Pending status,
manager ownership and a free slot, fails with SlotExhausted (and no state
change) when the capacity is reached, and on success appends the officer,
sets handlingProject and marks the registration Approved. -/
theorem C9_officerSlotCapacity :
    (∀ s ops, SlotInv s → SlotInv (run s ops)) ∧
    (∀ mid officer project, officer.registered_project ≠ none →
      (project.manager ≠ mid →
        approveOrRejectHDBOfficerRegistration mid officer project true =
          Except.error OpError.AuthorizationDenied) ∧
      (project.manager = mid → officer.registration_status ≠ some RegStatus.Pending →
        approveOrRejectHDBOfficerRegistration mid officer project true =
          Except.error OpError.InvalidStateTransition) ∧
      (project.manager = mid → officer.registration_status = some RegStatus.Pending →
        (project.officerSlot ≤ project.officers.length →
          approveOrRejectHDBOfficerRegistration mid officer project true =
            Except.error OpError.SlotExhausted) ∧
        (project.officers.length < project.officerSlot →
          approveOrRejectHDBOfficerRegistration mid officer project true =
            Except.ok ({ officer with handling_project := some project.projectID,
                                      registration_status := some RegStatus.Approved },
                       { project with officers := project.officers ++ [officer.userID] })))) ∧
    (∀ s mid oid d err officer pid project,
      findOfficer s.officers oid = some officer →
      officer.registered_project = some pid →
      findProjectByID s.projects pid = some project →
      approveOrRejectHDBOfficerRegistration mid officer project d = Except.error err →
      step s (Op.approveOfficerReg mid oid d) = s) := by
  refine ⟨?_, ?_, ?_⟩
  · intro s ops
    induction ops generalizing s with
    | nil => exact fun h => h
    | cons op rest ih => exact fun h => ih (step s op) (slotInv_step s op h)
  · intro mid officer project hreg
    refine ⟨?_, ?_, ?_⟩
    · intro hm
      unfold approveOrRejectHDBOfficerRegistration
      rw [if_neg hreg, if_pos hm]
    · intro hm hs
      unfold approveOrRejectHDBOfficerRegistration
      rw [if_neg hreg, if_neg (fun hc => hc hm), if_pos hs]
    · intro hm hs
      constructor
      · intro hslot
        unfold approveOrRejectHDBOfficerRegistration
        rw [if_neg hreg, if_neg (fun hc => hc hm), if_neg (not_not_intro hs), if_pos rfl,
          if_pos hslot]
      · intro hslot
        unfold approveOrRejectHDBOfficerRegistration
        rw [if_neg hreg, if_neg (fun hc => hc hm), if_neg (not_not_intro hs), if_pos rfl,
          if_neg (by omega)]
  · intro s mid oid d err officer pid project h1 h2 h3 h4
    simp [step, stepApproveOfficerReg, h1, h2, h3, h4]

/-- The single-step status edges of the application state machine. -/
def edgeOk (a b : AppStatus) : Prop :=
  a = b ∨ (a = AppStatus.Pending ∧ b = AppStatus.Successful) ∨
    (a = AppStatus.Pending ∧ b = AppStatus.Unsuccessful) ∨
    (a = AppStatus.Successful ∧ b = AppStatus.Unsuccessful) ∨
    (a = AppStatus.Successful ∧ b = AppStatus.Booked)

/-- Multi-step reachability along the allowed edges. -/
def statusReach (a b : AppStatus) : Prop :=
  a = b ∨
    (a = AppStatus.Pending ∧
      (b = AppStatus.Successful ∨ b = AppStatus.Unsuccessful ∨ b = AppStatus.Booked)) ∨
    (a = AppStatus.Successful ∧ (b = AppStatus.Unsuccessful ∨ b = AppStatus.Booked))

theorem edge_statusReach_trans (a b c : AppStatus) (h1 : edgeOk a b)
    (h2 : statusReach b c) : statusReach a c := by
  cases a <;> cases b <;> cases c <;> simp_all [statusReach, edgeOk]

/-- One step moves the application at any index along at most one allowed
edge and never changes its project or chosen flat type. -/
theorem step_get_edge (s : State) (op : Op) (i : Nat) (app : Application)
    (h : s.applications[i]? = some app) :
    ∃ app2, (step s op).applications[i]? = some app2 ∧
      app2.projectID = app.projectID ∧ app2.chosen_flat_type = app.chosen_flat_type ∧
      edgeOk app.applicationStatus app2.applicationStatus := by
  have hrefl : edgeOk app.applicationStatus app.applicationStatus := Or.inl rfl
  cases op with
  | applyForProject aid pid ft =>
    refine ⟨app, ?_, rfl, rfl, hrefl⟩
    simp only [step]
    cases h1 : findApplicant s.applicants aid with
    | none => simpa only [stepApply, h1] using h
    | some a2 =>
      cases h2 : findProjectByID s.projects pid with
      | none => simpa only [stepApply, h1, h2] using h
      | some project =>
        cases h3 : applyForProject a2 (ownApplications s aid) project ft with
        | error e => simpa only [stepApply, h1, h2, h3] using h
        | ok app0 =>
          simp only [stepApply, h1, h2, h3]
          have hlt : i < s.applications.length := (List.getElem?_eq_some.mp h).1
          rw [List.getElem?_append, if_pos hlt]
          exact h
  | approveApplication mid j d =>
    simp only [step]
    cases h1 : s.applications[j]? with
    | none =>
      exact ⟨app, by simpa only [stepApproveApplication, h1] using h, rfl, rfl, hrefl⟩
    | some app0 =>
      cases h2 : findProjectByID s.projects app0.projectID with
      | none =>
        exact ⟨app, by simpa only [stepApproveApplication, h1, h2] using h, rfl, rfl, hrefl⟩
      | some project =>
        cases h3 : approveOrRejectApplication mid project app0 d with
        | error e =>
          exact ⟨app, by simpa only [stepApproveApplication, h1, h2, h3] using h,
            rfl, rfl, hrefl⟩
        | ok app2 =>
          by_cases hij : j = i
          · subst hij
            have happ : app0 = app := by
              rw [h1] at h
              exact Option.some_inj.mp h
            subst happ
            obtain ⟨hp, hor⟩ := approveOrRejectApplication_ok_inv mid project app0 d app2 h3
            rcases hor with he | he
            · subst he
              exact ⟨updateStatus app0 AppStatus.Successful,
                by simp only [stepApproveApplication, h1, h2, h3]
                   exact List.getElem?_set_eq_of_lt _ (List.getElem?_eq_some.mp h1).1,
                rfl, rfl, Or.inr (Or.inl ⟨hp, rfl⟩)⟩
            · subst he
              exact ⟨updateStatus app0 AppStatus.Unsuccessful,
                by simp only [stepApproveApplication, h1, h2, h3]
                   exact List.getElem?_set_eq_of_lt _ (List.getElem?_eq_some.mp h1).1,
                rfl, rfl, Or.inr (Or.inr (Or.inl ⟨hp, rfl⟩))⟩
          · refine ⟨app, ?_, rfl, rfl, hrefl⟩
            simp only [stepApproveApplication, h1, h2, h3]
            rw [List.getElem?_set_ne hij]
            exact h
  | requestWithdrawal aid j =>
    simp only [step]
    cases h1 : s.applications[j]? with
    | none =>
      exact ⟨app, by simpa only [stepRequestWithdrawal, h1] using h, rfl, rfl, hrefl⟩
    | some app0 =>
      by_cases h2 : app0.applicantID = aid
      · by_cases h3 : app0.applicationStatus = AppStatus.Unsuccessful ∨
            app0.applicationStatus = AppStatus.Booked
        · exact ⟨app, by simpa only [stepRequestWithdrawal, h1, if_pos h2, if_pos h3] using h,
            rfl, rfl, hrefl⟩
        · by_cases hij : j = i
          · subst hij
            have happ : app0 = app := by
              rw [h1] at h
              exact Option.some_inj.mp h
            subst happ
            exact ⟨{ app0 with requested_withdrawal := true },
              by simp only [stepRequestWithdrawal, h1, if_pos h2, if_neg h3]
                 exact List.getElem?_set_eq_of_lt _ (List.getElem?_eq_some.mp h1).1,
              rfl, rfl, Or.inl rfl⟩
          · refine ⟨app, ?_, rfl, rfl, hrefl⟩
            simp only [stepRequestWithdrawal, h1, if_pos h2, if_neg h3]
            rw [List.getElem?_set_ne hij]
            exact h
      · exact ⟨app, by simpa only [stepRequestWithdrawal, h1, if_neg h2] using h,
          rfl, rfl, hrefl⟩
  | approveWithdrawal mid j d =>
    simp only [step]
    cases h1 : s.applications[j]? with
    | none =>
      exact ⟨app, by simpa only [stepApproveWithdrawal, h1] using h, rfl, rfl, hrefl⟩
    | some app0 =>
      cases h2 : findProjectByID s.projects app0.projectID with
      | none =>
        exact ⟨app, by simpa only [stepApproveWithdrawal, h1, h2] using h, rfl, rfl, hrefl⟩
      | some project =>
        cases h3 : approveOrRejectWithdrawal mid project app0 d with
        | error e =>
          exact ⟨app, by simpa only [stepApproveWithdrawal, h1, h2, h3] using h,
            rfl, rfl, hrefl⟩
        | ok app2 =>
          by_cases hij : j = i
          · subst hij
            have happ : app0 = app := by
              rw [h1] at h
              exact Option.some_inj.mp h
            subst happ
            obtain ⟨hpid, hft, hst⟩ :=
              approveOrRejectWithdrawal_ok_inv mid project app0 d app2 h3
            refine ⟨app2,
              by simp only [stepApproveWithdrawal, h1, h2, h3]
                 exact List.getElem?_set_eq_of_lt _ (List.getElem?_eq_some.mp h1).1,
              hpid, hft, ?_⟩
            rcases hst with hsame | ⟨hps, hu⟩
            · exact Or.inl hsame.symm
            · rcases hps with hP | hS
              · exact Or.inr (Or.inr (Or.inl ⟨hP, hu⟩))
              · exact Or.inr (Or.inr (Or.inr (Or.inl ⟨hS, hu⟩)))
          · refine ⟨app, ?_, rfl, rfl, hrefl⟩
            simp only [stepApproveWithdrawal, h1, h2, h3]
            rw [List.getElem?_set_ne hij]
            exact h
  | registerToProject oid pid =>
    refine ⟨app, ?_, rfl, rfl, hrefl⟩
    simp only [step, (stepRegisterToProject_frame s oid pid).2]
    exact h
  | approveOfficerReg mid oid d =>
    refine ⟨app, ?_, rfl, rfl, hrefl⟩
    simp only [step, stepApproveOfficerReg_applications s mid oid d]
    exact h
  | updateFlatAvailability oid pid ft num =>
    refine ⟨app, ?_, rfl, rfl, hrefl⟩
    simp only [step, (stepUpdateFlatAvailability_frame s oid pid ft num).1]
    exact h
  | bookFlat oid j =>
    simp only [step]
    cases h1 : s.applications[j]? with
    | none => exact ⟨app, by simpa only [stepBookFlat, h1] using h, rfl, rfl, hrefl⟩
    | some app0 =>
      by_cases h2 : app0.applicationStatus = AppStatus.Successful
      · cases h3 : findOfficer s.officers oid with
        | none =>
          exact ⟨app, by simpa only [stepBookFlat, h1, if_pos h2, h3] using h,
            rfl, rfl, hrefl⟩
        | some officer =>
          by_cases h4 : officer.handling_project = some app0.projectID
          · by_cases hij : j = i
            · subst hij
              have happ : app0 = app := by
                rw [h1] at h
                exact Option.some_inj.mp h
              subst happ
              exact ⟨updateStatus app0 AppStatus.Booked,
                by simp only [stepBookFlat, h1, if_pos h2, h3, if_pos h4]
                   exact List.getElem?_set_eq_of_lt _ (List.getElem?_eq_some.mp h1).1,
                rfl, rfl, Or.inr (Or.inr (Or.inr (Or.inr ⟨h2, rfl⟩)))⟩
            · refine ⟨app, ?_, rfl, rfl, hrefl⟩
              simp only [stepBookFlat, h1, if_pos h2, h3, if_pos h4]
              rw [List.getElem?_set_ne hij]
              exact h
          · exact ⟨app, by simpa only [stepBookFlat, h1, if_pos h2, h3, if_neg h4] using h,
              rfl, rfl, hrefl⟩
      · exact ⟨app, by simpa only [stepBookFlat, h1, if_neg h2] using h, rfl, rfl, hrefl⟩

/-- One step either keeps the application list, rewrites one position, or
appends one freshly created application. -/
theorem step_apps_shape (s : State) (op : Op) :
    (step s op).applications = s.applications ∨
    (∃ j app2, (step s op).applications = s.applications.set j app2) ∨
    (∃ a project ft, (step s op).applications = s.applications ++ [mkApplication a project ft]) := by
  cases op with
  | applyForProject aid pid ft =>
    simp only [step]
    cases h1 : findApplicant s.applicants aid with
    | none => left; simp [stepApply, h1]
    | some a2 =>
      cases h2 : findProjectByID s.projects pid with
      | none => left; simp [stepApply, h1, h2]
      | some project =>
        cases h3 : applyForProject a2 (ownApplications s aid) project ft with
        | error e => left; simp [stepApply, h1, h2, h3]
        | ok app0 =>
          right; right
          obtain ⟨happ, -⟩ := applyForProject_ok_inv a2 (ownApplications s aid) project ft app0 h3
          exact ⟨a2, project, ft, by simp only [stepApply, h1, h2, h3]; rw [happ]⟩
  | approveApplication mid j d =>
    simp only [step]
    cases h1 : s.applications[j]? with
    | none => left; simp [stepApproveApplication, h1]
    | some app0 =>
      cases h2 : findProjectByID s.projects app0.projectID with
      | none => left; simp [stepApproveApplication, h1, h2]
      | some project =>
        cases h3 : approveOrRejectApplication mid project app0 d with
        | error e => left; simp [stepApproveApplication, h1, h2, h3]
        | ok app2 =>
          right; left
          exact ⟨j, app2, by simp [stepApproveApplication, h1, h2, h3]⟩
  | requestWithdrawal aid j =>
    simp only [step]
    cases h1 : s.applications[j]? with
    | none => left; simp [stepRequestWithdrawal, h1]
    | some app0 =>
      by_cases h2 : app0.applicantID = aid
      · by_cases h3 : app0.applicationStatus = AppStatus.Unsuccessful ∨
            app0.applicationStatus = AppStatus.Booked
        · left; simp [stepRequestWithdrawal, h1, if_pos h2, if_pos h3]
        · right; left
          exact ⟨j, { app0 with requested_withdrawal := true },
            by simp [stepRequestWithdrawal, h1, if_pos h2, if_neg h3]⟩
      · left; simp [stepRequestWithdrawal, h1, if_neg h2]
  | approveWithdrawal mid j d =>
    simp only [step]
    cases h1 : s.applications[j]? with
    | none => left; simp [stepApproveWithdrawal, h1]
    | some app0 =>
      cases h2 : findProjectByID s.projects app0.projectID with
      | none => left; simp [stepApproveWithdrawal, h1, h2]
      | some project =>
        cases h3 : approveOrRejectWithdrawal mid project app0 d with
        | error e => left; simp [stepApproveWithdrawal, h1, h2, h3]
        | ok app2 =>
          right; left
          exact ⟨j, app2, by simp [stepApproveWithdrawal, h1, h2, h3]⟩
  | registerToProject oid pid =>
    left
    simp only [step, (stepRegisterToProject_frame s oid pid).2]
  | approveOfficerReg mid oid d =>
    left
    simp only [step, stepApproveOfficerReg_applications s mid oid d]
  | updateFlatAvailability oid pid ft num =>
    left
    simp only [step, (stepUpdateFlatAvailability_frame s oid pid ft num).1]
  | bookFlat oid j =>
    simp only [step]
    cases h1 : s.applications[j]? with
    | none => left; simp [stepBookFlat, h1]
    | some app0 =>
      by_cases h2 : app0.applicationStatus = AppStatus.Successful
      · cases h3 : findOfficer s.officers oid with
        | none => left; simp [stepBookFlat, h1, if_pos h2, h3]
        | some officer =>
          by_cases h4 : officer.handling_project = some app0.projectID
          · right; left
            exact ⟨j, updateStatus app0 AppStatus.Booked,
              by simp [stepBookFlat, h1, if_pos h2, h3, if_pos h4]⟩
          · left; simp [stepBookFlat, h1, if_pos h2, h3, if_neg h4]
      · left; simp [stepBookFlat, h1, if_neg h2]

/-- C4: along every operation and every operation sequence an
application's status moves only along Pending to Successful, Pending to
Unsuccessful, Successful to Unsuccessful and Successful to Booked, new
applications start Pending, and Unsuccessful and Booked are terminal. -/
theorem C4_statusTransitions :
    (∀ (s : State) (op : Op) (i : Nat) (app app2 : Application),
      s.applications[i]? = some app →
      (step s op).applications[i]? = some app2 →
      edgeOk app.applicationStatus app2.applicationStatus) ∧
    (∀ (s : State) (op : Op) (i : Nat) (app2 : Application),
      s.applications.length ≤ i →
      (step s op).applications[i]? = some app2 →
      app2.applicationStatus = AppStatus.Pending) ∧
    (∀ (s : State) (ops : List Op) (i : Nat) (app app2 : Application),
      s.applications[i]? = some app →
      (run s ops).applications[i]? = some app2 →
      statusReach app.applicationStatus app2.applicationStatus) := by
  refine ⟨?_, ?_, ?_⟩
  · intro s op i app app2 h1 h2
    obtain ⟨app3, hg, -, -, he⟩ := step_get_edge s op i app h1
    rw [hg, Option.some_inj] at h2
    rw [← h2]
    exact he
  · intro s op i app2 hlen h2
    rcases step_apps_shape s op with hs | ⟨j, a2, hs⟩ | ⟨a, project, ft, hs⟩
    · rw [hs, List.getElem?_len_le hlen] at h2
      exact absurd h2 (by simp)
    · rw [hs, List.getElem?_len_le (by rw [List.length_set]; exact hlen)] at h2
      exact absurd h2 (by simp)
    · rw [hs, List.getElem?_append, if_neg (by omega)] at h2
      by_cases hi : i - s.applications.length = 0
      · rw [hi] at h2
        have hmk : some (mkApplication a project ft) = some app2 := h2
        rw [← Option.some_inj.mp hmk]
        rfl
      · rw [List.getElem?_len_le (by simp only [List.length_cons, List.length_nil]; omega)] at h2
        exact absurd h2 (by simp)
  · intro s ops
    induction ops generalizing s with
    | nil =>
      intro i app app2 h1 h2
      have h3 : some app = some app2 := h1 ▸ h2
      rw [← Option.some_inj.mp h3]
      exact Or.inl rfl
    | cons op rest ih =>
      intro i app app2 h1 h2
      obtain ⟨app3, hg, -, -, he⟩ := step_get_edge s op i app h1
      exact edge_statusReach_trans _ _ _ he (ih (step s op) i app3 app2 hg h2)

/-- Invariant: every application's project exists in the registry and its
chosen flat type is a key of that project's flat-type mapping. -/
def FlatKeyInv (s : State) : Prop :=
  ∀ app ∈ s.applications, ∃ project info,
    findProjectByID s.projects app.projectID = some project ∧
    lookupFT project.flatTypes app.chosen_flat_type = some info

theorem flatKeyInv_step (s : State) (op : Op) (h : FlatKeyInv s) : FlatKeyInv (step s op) := by
  cases op with
  | applyForProject aid pid ft =>
    simp only [step]
    cases h1 : findApplicant s.applicants aid with
    | none => simpa only [stepApply, h1] using h
    | some a2 =>
      cases h2 : findProjectByID s.projects pid with
      | none => simpa only [stepApply, h1, h2] using h
      | some project =>
        cases h3 : applyForProject a2 (ownApplications s aid) project ft with
        | error e => simpa only [stepApply, h1, h2, h3] using h
        | ok app0 =>
          simp only [stepApply, h1, h2, h3]
          intro app hmem
          rcases List.mem_append.mp hmem with hmem2 | hmem2
          · exact h app hmem2
          · have happ0 : app = app0 := by simpa using hmem2
            subst happ0
            obtain ⟨hmk, info, hl, -⟩ :=
              applyForProject_ok_inv a2 (ownApplications s aid) project ft app h3
            subst hmk
            have hpid := (findProjectByID_some s.projects pid project h2).2
            refine ⟨project, info, ?_, hl⟩
            show findProjectByID s.projects project.projectID = some project
            rw [hpid]
            exact h2
  | approveApplication mid j d =>
    simp only [step]
    cases h1 : s.applications[j]? with
    | none => simpa only [stepApproveApplication, h1] using h
    | some app0 =>
      cases h2 : findProjectByID s.projects app0.projectID with
      | none => simpa only [stepApproveApplication, h1, h2] using h
      | some project =>
        cases h3 : approveOrRejectApplication mid project app0 d with
        | error e => simpa only [stepApproveApplication, h1, h2, h3] using h
        | ok app2 =>
          simp only [stepApproveApplication, h1, h2, h3]
          intro app hmem
          rcases List.mem_or_eq_of_mem_set hmem with hmem2 | rfl
          · exact h app hmem2
          · obtain ⟨-, hor⟩ := approveOrRejectApplication_ok_inv mid project app0 d app h3
            have h0 := h app0 (List.getElem?_mem h1)
            rcases hor with he | he <;> subst he <;> exact h0
  | requestWithdrawal aid j =>
    simp only [step]
    cases h1 : s.applications[j]? with
    | none => simpa only [stepRequestWithdrawal, h1] using h
    | some app0 =>
      by_cases h2 : app0.applicantID = aid
      · by_cases h3 : app0.applicationStatus = AppStatus.Unsuccessful ∨
            app0.applicationStatus = AppStatus.Booked
        · simpa only [stepRequestWithdrawal, h1, if_pos h2, if_pos h3] using h
        · simp only [stepRequestWithdrawal, h1, if_pos h2, if_neg h3]
          intro app hmem
          rcases List.mem_or_eq_of_mem_set hmem with hmem2 | rfl
          · exact h app hmem2
          · exact h app0 (List.getElem?_mem h1)
      · simpa only [stepRequestWithdrawal, h1, if_neg h2] using h
  | approveWithdrawal mid j d =>
    simp only [step]
    cases h1 : s.applications[j]? with
    | none => simpa only [stepApproveWithdrawal, h1] using h
    | some app0 =>
      cases h2 : findProjectByID s.projects app0.projectID with
      | none => simpa only [stepApproveWithdrawal, h1, h2] using h
      | some project =>
        cases h3 : approveOrRejectWithdrawal mid project app0 d with
        | error e => simpa only [stepApproveWithdrawal, h1, h2, h3] using h
        | ok app2 =>
          simp only [stepApproveWithdrawal, h1, h2, h3]
          intro app hmem
          rcases List.mem_or_eq_of_mem_set hmem with hmem2 | rfl
          · exact h app hmem2
          · obtain ⟨hpid, hft, -⟩ := approveOrRejectWithdrawal_ok_inv mid project app0 d app h3
            obtain ⟨project3, info3, hf3, hl3⟩ := h app0 (List.getElem?_mem h1)
            exact ⟨project3, info3, by rw [hpid]; exact hf3, by rw [hft]; exact hl3⟩
  | registerToProject oid pid =>
    simp only [step]
    intro app hmem
    rw [(stepRegisterToProject_frame s oid pid).2] at hmem
    rw [(stepRegisterToProject_frame s oid pid).1]
    exact h app hmem
  | approveOfficerReg mid oid d =>
    simp only [step]
    cases h1 : findOfficer s.officers oid with
    | none => simpa only [stepApproveOfficerReg, h1] using h
    | some officer =>
      cases h2 : officer.registered_project with
      | none => simpa only [stepApproveOfficerReg, h1, h2] using h
      | some pid =>
        cases h3 : findProjectByID s.projects pid with
        | none => simpa only [stepApproveOfficerReg, h1, h2, h3] using h
        | some project =>
          cases h4 : approveOrRejectHDBOfficerRegistration mid officer project d with
          | error e => simpa only [stepApproveOfficerReg, h1, h2, h3, h4] using h
          | ok pr =>
            obtain ⟨officer2, project2⟩ := pr
            obtain ⟨-, -, hcase⟩ := approveOrRejectHDBOfficerRegistration_ok_inv
              mid officer project d officer2 project2 h4
            have hq : project2.projectID = project.projectID ∧
                project2.flatTypes = project.flatTypes := by
              rcases hcase with he | ⟨he, -⟩ <;> rw [he] <;> exact ⟨rfl, rfl⟩
            simp only [stepApproveOfficerReg, h1, h2, h3, h4]
            intro app hmem
            obtain ⟨project3, info3, hf3, hl3⟩ := h app hmem
            rw [findProjectByID_updateProject_const s.projects pid app.projectID
              project2 project h3 hq.1]
            by_cases hpid : app.projectID = pid
            · refine ⟨project2, info3, by rw [if_pos hpid], ?_⟩
              rw [hq.2]
              have hp3 : project = project3 := by
                rw [hpid, h3, Option.some_inj] at hf3
                exact hf3
              rw [hp3]
              exact hl3
            · exact ⟨project3, info3, by rw [if_neg hpid]; exact hf3, hl3⟩
  | updateFlatAvailability oid pid ft num =>
    simp only [step]
    cases h1 : findOfficer s.officers oid with
    | none => simpa only [stepUpdateFlatAvailability, h1] using h
    | some officer =>
      by_cases h2 : officer.handling_project ≠ some pid
      · simpa only [stepUpdateFlatAvailability, h1, if_pos h2] using h
      · simp only [stepUpdateFlatAvailability, h1, if_neg h2]
        intro app hmem
        obtain ⟨project3, info3, hf3, hl3⟩ := h app hmem
        rw [findProjectByID_updateProject (fun p => reduceUnits p ft num) s.projects pid
          app.projectID (fun p => reduceUnits_projectID p ft num)]
        by_cases hpid : app.projectID = pid
        · rw [if_pos hpid]
          rw [hpid] at hf3
          rw [hf3]
          by_cases hft : app.chosen_flat_type = ft
          · refine ⟨reduceUnits project3 ft num,
              { info3 with units := if info3.units - num < 0 then 0 else info3.units - num },
              rfl, ?_⟩
            rw [lookupFT_reduceUnits, if_pos hft, hl3]
            rfl
          · refine ⟨reduceUnits project3 ft num, info3, rfl, ?_⟩
            rw [lookupFT_reduceUnits, if_neg hft]
            exact hl3
        · rw [if_neg hpid]
          exact ⟨project3, info3, hf3, hl3⟩
  | bookFlat oid j =>
    simp only [step]
    cases h1 : s.applications[j]? with
    | none => simpa only [stepBookFlat, h1] using h
    | some app0 =>
      by_cases h2 : app0.applicationStatus = AppStatus.Successful
      · cases h3 : findOfficer s.officers oid with
        | none => simpa only [stepBookFlat, h1, if_pos h2, h3] using h
        | some officer =>
          by_cases h4 : officer.handling_project = some app0.projectID
          · simp only [stepBookFlat, h1, if_pos h2, h3, if_pos h4]
            intro app hmem
            have hInvApp : ∃ project info,
                findProjectByID s.projects app.projectID = some project ∧
                lookupFT project.flatTypes app.chosen_flat_type = some info := by
              rcases List.mem_or_eq_of_mem_set hmem with hmem2 | rfl
              · exact h app hmem2
              · exact h app0 (List.getElem?_mem h1)
            obtain ⟨project3, info3, hf3, hl3⟩ := hInvApp
            rw [findProjectByID_updateProject (fun p => reduceUnits p app0.chosen_flat_type 1)
              s.projects app0.projectID app.projectID
              (fun p => reduceUnits_projectID p app0.chosen_flat_type 1)]
            by_cases hpid : app.projectID = app0.projectID
            · rw [if_pos hpid]
              rw [hpid] at hf3
              rw [hf3]
              by_cases hft : app.chosen_flat_type = app0.chosen_flat_type
              · refine ⟨reduceUnits project3 app0.chosen_flat_type 1,
                  { info3 with units := if info3.units - 1 < 0 then 0 else info3.units - 1 },
                  rfl, ?_⟩
                rw [lookupFT_reduceUnits, if_pos hft, hl3]
                rfl
              · refine ⟨reduceUnits project3 app0.chosen_flat_type 1, info3, rfl, ?_⟩
                rw [lookupFT_reduceUnits, if_neg hft]
                exact hl3
            · rw [if_neg hpid]
              exact ⟨project3, info3, hf3, hl3⟩
          · simpa only [stepBookFlat, h1, if_pos h2, h3, if_neg h4] using h
      · simpa only [stepBookFlat, h1, if_neg h2] using h

/-- C10: the chosen-flat-type key invariant holds in application-free
initial states, is preserved by every operation and every run, and makes
the unguarded dict lookup in the manager's approve branch total: the
KeyError path is unreachable. -/
theorem C10_flatTypeLookupTotal :
    (∀ s : State, s.applications = [] → FlatKeyInv s) ∧
    (∀ (s : State) (op : Op), FlatKeyInv s → FlatKeyInv (step s op)) ∧
    (∀ (s : State) (ops : List Op), FlatKeyInv s → FlatKeyInv (run s ops)) ∧
    (∀ (s : State) (mid i : Nat) (d : Bool) (app : Application) (project : BTOProject),
      FlatKeyInv s → s.applications[i]? = some app →
      findProjectByID s.projects app.projectID = some project →
      approveOrRejectApplication mid project app d ≠ Except.error OpError.KeyError) := by
  refine ⟨?_, ?_, ?_, ?_⟩
  · intro s hs app hmem
    rw [hs] at hmem
    exact absurd hmem (by simp)
  · exact fun s op h => flatKeyInv_step s op h
  · intro s ops
    induction ops generalizing s with
    | nil => exact fun h => h
    | cons op rest ih => exact fun h => ih (step s op) (flatKeyInv_step s op h)
  · intro s mid i d app project hInv h1 h2 hcontra
    obtain ⟨project3, info3, hf3, hl3⟩ := hInv app (List.getElem?_mem h1)
    rw [h2, Option.some_inj] at hf3
    subst hf3
    unfold approveOrRejectApplication at hcontra
    split at hcontra
    · exact absurd hcontra (by simp)
    · split at hcontra
      · exact absurd hcontra (by simp)
      · split at hcontra
        · split at hcontra
          · next hnone =>
            rw [hl3] at hnone
            exact absurd hnone (by simp)
          · split at hcontra
            · exact absurd hcontra (by simp)
            · exact absurd hcontra (by simp)
        · exact absurd hcontra (by simp)

/-- C6, modelled from the spec (the booking orchestration is an officer
action external to the core): when an application is Successful and the
handling officer allocates a unit, the status becomes Booked and the
project's unit count for the chosen flat type is decremented via
reduceUnits. -/
theorem C6_bookingBooksAndDecrements (s : State) (oid i : Nat) (app : Application)
    (officer : OfficerRec)
    (h1 : s.applications[i]? = some app)
    (h2 : app.applicationStatus = AppStatus.Successful)
    (h3 : findOfficer s.officers oid = some officer)
    (h4 : officer.handling_project = some app.projectID) :
    (step s (Op.bookFlat oid i)).applications[i]? =
      some (updateStatus app AppStatus.Booked) ∧
    (step s (Op.bookFlat oid i)).projects =
      updateProject (fun p => reduceUnits p app.chosen_flat_type 1) s.projects app.projectID ∧
    (∀ project info, findProjectByID s.projects app.projectID = some project →
      lookupFT project.flatTypes app.chosen_flat_type = some info →
      ∃ project2, findProjectByID (step s (Op.bookFlat oid i)).projects app.projectID =
          some project2 ∧
        lookupFT project2.flatTypes app.chosen_flat_type =
          some { info with units := if info.units - 1 < 0 then 0 else info.units - 1 }) := by
  refine ⟨?_, ?_, ?_⟩
  · simp only [step, stepBookFlat, h1, if_pos h2, h3, if_pos h4]
    exact List.getElem?_set_eq_of_lt _ (List.getElem?_eq_some.mp h1).1
  · simp only [step, stepBookFlat, h1, if_pos h2, h3, if_pos h4]
  · intro project info hf hl
    simp only [step, stepBookFlat, h1, if_pos h2, h3, if_pos h4]
    rw [findProjectByID_updateProject _ _ _ _
      (fun p => reduceUnits_projectID p app.chosen_flat_type 1), if_pos rfl, hf]
    refine ⟨reduceUnits project app.chosen_flat_type 1, rfl, ?_⟩
    rw [lookupFT_reduceUnits, if_pos rfl, hl]
    rfl

/-- A concrete project with one available 2-Room unit. -/
def projectW : BTOProject :=
  { projectID := 1, projectName := "Acacia", neighborhood := "N",
    flatTypes := [("2-Room", ⟨1, 100⟩), ("3-Room", ⟨0, 200⟩)],
    manager := 9, officers := [7], visibility := true, officerSlot := 1 }

/-- A concrete officer handling that project. -/
def officerW : OfficerRec :=
  { userID := 7, age := 40, marital_status := "Married",
    handling_project := some 1, registration_status := some RegStatus.Approved,
    registered_project := some 1 }

/-- A concrete Successful application for the project. -/
def appW : Application :=
  { applicantID := 2, projectID := 1, applicationStatus := AppStatus.Successful,
    chosen_flat_type := "2-Room", requested_withdrawal := false }

/-- A concrete session state tying the records together. -/
def stateW : State :=
  { projects := [projectW], applicants := [⟨2, 36, "Single"⟩],
    officers := [officerW], applications := [appW] }

/-- C6 witness: booking the concrete Successful application marks it
Booked. -/
theorem C6_bookingBooksAndDecrements_witness :
    (step stateW (Op.bookFlat 7 0)).applications[0]? =
      some (updateStatus appW AppStatus.Booked) :=
  (C6_bookingBooksAndDecrements stateW 7 0 appW officerW rfl rfl rfl rfl).1

end HDB
